import Mathlib

/-!
Verification of the graduation rule engine (`server/src/services/ruleEngine.js`)
and the course-store accessors it uses (`server/src/models/firebaseMasterModel.js`).

The engine is embedded shallowly:
* JavaScript runtime values that flow through the engine (numbers, strings,
  booleans, `undefined`, `NaN`) are modelled by `JsVal`; JavaScript coercions
  (`ToNumber`, truthiness, `-`, `>=`, `<`, `||`, template-string printing) are
  modelled by the `js*` helpers.
* A rule evaluator may be synchronous (returns `{passed, current}`), be an
  `async` function (returns a promise; modelled by `EvalRet.asyncRet` carrying
  the values the promise would resolve to), or throw.  `Rule.evaluate`
  destructures the evaluator's return value WITHOUT awaiting it, exactly as the
  source does, so an async evaluator yields `undefined` fields.
* The node tree (`RTree`) has a `promiseNode` constructor for a pending
  promise stored where a node is expected: `createCSGraduationRuleTree` calls
  the `async` function `createRequiredCourseGroup` without `await`, so its
  fourth child is such a promise.  Calling `.evaluate` on a promise throws a
  `TypeError` (a promise has no `evaluate` method).
* The two course stores (the in-memory `CourseDatabase` and the Firestore
  `FirebaseMasterModel`) are both modelled as lists of course records keyed by
  `courseCode`.  The Firestore store is passed explicitly where the source
  reaches the module-level singleton `getFirebaseMasterModel()`, which the
  engine imports.  `getCourseDB`, by contrast, is referenced by the
  TOTAL_CREDIT evaluator but never imported by `ruleEngine.js`, so that
  evaluator throws a `ReferenceError` on every call; the store-resolved
  variant of its body is modelled separately.
-/

namespace GPA

/-- JavaScript runtime values used by the engine. -/
inductive JsVal where
  | undef : JsVal
  | nan : JsVal
  | bool : Bool → JsVal
  | num : Int → JsVal
  | str : String → JsVal
deriving DecidableEq, Repr

/-- JavaScript truthiness. -/
def truthy : JsVal → Bool
  | .undef => false
  | .nan => false
  | .bool b => b
  | .num n => n != 0
  | .str s => s != ""

/-- `ToNumber` on a string: the empty string is `0`, a digit string is its
value, anything else is `NaN` (`none`).  Covers every string the program
subtracts (course codes, which carry no surrounding whitespace). -/
def strToNumber (s : String) : Option Int :=
  if s.toList = [] then some 0
  else if s.toList.all Char.isDigit then
    some ((s.toList.foldl (fun acc c => acc * 10 + (c.toNat - 48)) 0 : Nat) : Int)
  else none

/-- `ToNumber`; `none` is `NaN`. -/
def toNumber : JsVal → Option Int
  | .undef => none
  | .nan => none
  | .bool b => some (if b then 1 else 0)
  | .num n => some n
  | .str s => strToNumber s

/-- JavaScript binary `-`. -/
def jsSub (a b : JsVal) : JsVal :=
  match toNumber a, toNumber b with
  | some x, some y => .num (x - y)
  | _, _ => .nan

/-- `Math.max(0, x)` (`NaN` propagates). -/
def mathMax0 (a : JsVal) : JsVal :=
  match toNumber a with
  | some x => .num (max 0 x)
  | none => .nan

/-- JavaScript `>=` (numeric coercion; string-string compares lexically;
any comparison involving `NaN` is false). -/
def jsGE (a b : JsVal) : Bool :=
  match a, b with
  | .str x, .str y => decide (y ≤ x)
  | _, _ =>
    match toNumber a, toNumber b with
    | some x, some y => decide (y ≤ x)
    | _, _ => false

/-- JavaScript `<`. -/
def jsLT (a b : JsVal) : Bool :=
  match a, b with
  | .str x, .str y => decide (x < y)
  | _, _ =>
    match toNumber a, toNumber b with
    | some x, some y => decide (x < y)
    | _, _ => false

/-- JavaScript `||`. -/
def jsOr (a b : JsVal) : JsVal := if truthy a then a else b

/-- Template-string rendering of a value. -/
def jsToString : JsVal → String
  | .undef => "undefined"
  | .nan => "NaN"
  | .bool b => if b then "true" else "false"
  | .num n => toString n
  | .str s => s

/-- The value sitting in `context.courseCodes`: absent (`undefined`), an array
of course-code strings, or some other (non-array) JavaScript value. -/
inductive CodesVal where
  | undef : CodesVal
  | arr : List String → CodesVal
  | other : JsVal → CodesVal
deriving DecidableEq, Repr

/-- Truthiness of the `courseCodes` slot (arrays, even empty, are truthy). -/
def truthyCodes : CodesVal → Bool
  | .undef => false
  | .arr _ => true
  | .other v => truthy v

/-- `Array.isArray`. -/
def isArrayCodes : CodesVal → Bool
  | .arr _ => true
  | _ => false

/-- `ctx.courseCodes || []`. -/
def codesOrEmpty (c : CodesVal) : CodesVal :=
  if truthyCodes c then c else .arr []

/-- Errors surfaced by the engine: the explicit `courseCodes` validation
`throw`, the `TypeError`s of calling a missing method, and the
`ReferenceError` of evaluating a free identifier the module never binds
(carrying the identifier's name). -/
inductive JsError where
  | validation : String → JsError
  | typeError : JsError
  | referenceError : String → JsError
deriving DecidableEq, Repr

/-- The evaluation context (`evaluateGraduation`'s argument).  `grades` models
`ctx.grades?.[k]`: `none` is an absent entry (or an absent map). -/
structure Context where
  courseCodes : CodesVal
  grades : String → Option String
  curriculumYear : Option String
  studentType : Option String
  extraCurricularUnits : Option Int

/-- A message function's return value: a plain string, or (for the `async`
required-course message) a promise that would resolve to a string. -/
inductive MsgRet where
  | plain : String → MsgRet
  | promiseStr : String → MsgRet
deriving DecidableEq, Repr

/-- The `{passed, current, required}` record passed to a message function. -/
structure MsgArgs where
  passed : JsVal
  current : JsVal
  required : JsVal
deriving DecidableEq, Repr

/-- A rule evaluator's return value: a synchronous `{passed, current}`
record, a promise of such a record (`async` evaluator; the fields are the
values the promise would resolve to), or a thrown error. -/
inductive EvalRet where
  | sync : JsVal → JsVal → EvalRet
  | asyncRet : JsVal → JsVal → EvalRet
  | throwE : JsError → EvalRet
deriving DecidableEq, Repr

/-- The node tree: `Rule`, `RuleGroup`, or a pending promise stored where a
node is expected (the unawaited `createRequiredCourseGroup()` result). -/
inductive RTree where
  | rule : String → String → JsVal → (Context → JsVal → EvalRet) → (MsgArgs → MsgRet) → RTree
  | group : String → String → List RTree → String → RTree
  | promiseNode : RTree → RTree

/-- A Rule's evaluation result object
`{id, type, passed, required, current, remaining, message}`. -/
structure RuleResult where
  id : String
  type : String
  passed : JsVal
  required : JsVal
  current : JsVal
  remaining : JsVal
  message : MsgRet
deriving DecidableEq, Repr

/-- An evaluation result: a Rule result or a RuleGroup result
`{id, passed, logic, description, results}`. -/
inductive Result where
  | ruleRes : RuleResult → Result
  | groupRes : String → Bool → String → String → List Result → Result

/-- Truthiness of `r.passed` as read by `every`/`some` in
`RuleGroup.evaluate`. -/
def Result.passedTruthy : Result → Bool
  | .ruleRes r => truthy r.passed
  | .groupRes _ p _ _ _ => p

/-- `result.passed` as a JavaScript value. -/
def Result.passedVal : Result → JsVal
  | .ruleRes r => r.passed
  | .groupRes _ p _ _ _ => .bool p

/-- One entry of the flattened missing-items list. -/
structure MissingItem where
  id : String
  type : String
  rule : String
  message : MsgRet
  required : JsVal
  current : JsVal
  remaining : JsVal
deriving DecidableEq, Repr

def RuleType.TOTAL_CREDIT : String := "TOTAL_CREDIT"
def RuleType.MAJOR_BASIC_CREDIT : String := "MAJOR_BASIC_CREDIT"
def RuleType.MAJOR_ADVANCED_CREDIT : String := "MAJOR_ADVANCED_CREDIT"
def RuleType.LIBERAL_TOTAL_CREDIT : String := "LIBERAL_TOTAL_CREDIT"
def RuleType.REQUIRED_COURSE : String := "REQUIRED_COURSE"
def RuleType.EXTRA_CURRICULAR : String := "EXTRA_CURRICULAR"

def LogicType.AND : String := "AND"
def LogicType.OR : String := "OR"

/-- A course record as shaped by the stores (CSV row / Firestore document,
with the `|| 0` / `|| ''` defaults already applied). -/
structure CourseRec where
  courseCode : String
  courseName : String
  credit : Int
  type : String
  category : String
  stage : String
  isRequired : Bool
deriving DecidableEq, Repr

/-- `CourseDatabase.getCourse`: `this.courses.get(courseCode) || null`. -/
def CourseDatabase.getCourse (db : List CourseRec) (courseCode : String) : Option CourseRec :=
  db.find? (fun c => c.courseCode = courseCode)

/-- `CourseDatabase.getCourses`:
`courseCodes.map(code => this.getCourse(code)).filter(course => course !== null)`.
Calling `.map` on a non-array value throws a `TypeError`. -/
def CourseDatabase.getCourses (db : List CourseRec) (codes : CodesVal) :
    Except JsError (List CourseRec) :=
  match codes with
  | .arr l => .ok (l.filterMap (CourseDatabase.getCourse db))
  | _ => .error .typeError

/-- `FirebaseMasterModel.getByCourseCode`: a Firestore document lookup by
document id (the course code); `null` when the document does not exist. -/
def FirebaseMasterModel.getByCourseCode (master : List CourseRec) (courseCode : String) :
    Option CourseRec :=
  master.find? (fun c => c.courseCode = courseCode)

/-- The batch slices `courseCodes.slice(i, i + 10)` taken by
`FirebaseMasterModel.getByCourseCodes`. -/
def chunksOf10 (l : List String) : List (List String) :=
  if h : l = [] then []
  else (l.take 10) :: chunksOf10 (l.drop 10)
termination_by l.length
decreasing_by
  simp only [List.length_drop]
  have : 0 < l.length := List.length_pos.mpr h
  omega

/-- `FirebaseMasterModel.getByCourseCodes`: returns `[]` for a non-array or
empty input, otherwise fetches each code in batches of 10, keeping existing
documents in order. -/
def FirebaseMasterModel.getByCourseCodes (master : List CourseRec) (codes : CodesVal) :
    List CourseRec :=
  match codes with
  | .arr l =>
      if l = [] then []
      else (chunksOf10 l).flatMap
        (fun batch => batch.filterMap (FirebaseMasterModel.getByCourseCode master))
  | _ => []

/-- `FirebaseMasterModel.getRequiredCourses`: the `is_required == true`
query over the snapshot, in snapshot order. -/
def FirebaseMasterModel.getRequiredCourses (master : List CourseRec) : List CourseRec :=
  master.filter (fun c => c.isRequired)

/-- The body of `Rule.evaluate` after the evaluator call: destructure
`{passed, current}` (an unawaited promise destructures to `undefined`s) and
build the result object, with
`remaining: passed ? 0 : Math.max(0, this.required - current)`. -/
def mkRuleResult (id type : String) (required : JsVal) (msg : MsgArgs → MsgRet)
    (passed current : JsVal) : RuleResult :=
  { id := id, type := type, passed := passed, required := required, current := current,
    remaining := if truthy passed then JsVal.num 0 else mathMax0 (jsSub required current),
    message := msg { passed := passed, current := current, required := required } }

/-- Dispatch of `Rule.evaluate` on the evaluator's return value. -/
def evalRuleRet (id type : String) (required : JsVal) (msg : MsgArgs → MsgRet) :
    EvalRet → Except JsError Result
  | .sync p c => .ok (.ruleRes (mkRuleResult id type required msg p c))
  | .asyncRet _ _ => .ok (.ruleRes (mkRuleResult id type required msg .undef .undef))
  | .throwE e => .error e

mutual

/-- `Rule.evaluate` / `RuleGroup.evaluate`.  A group maps `evaluate` over its
children left to right and aggregates with
`logic === 'AND' ? results.every(r => r.passed) : results.some(r => r.passed)`.
Calling `.evaluate` on a promise child throws a `TypeError`. -/
def RTree.evaluate : RTree → Context → Except JsError Result
  | .rule id type required ev msg, ctx => evalRuleRet id type required msg (ev ctx required)
  | .group id logic children description, ctx =>
      match evalChildren children ctx with
      | .error e => .error e
      | .ok results =>
          .ok (.groupRes id
            (if logic = LogicType.AND then results.all Result.passedTruthy
             else results.any Result.passedTruthy)
            logic description results)
  | .promiseNode _, _ => .error .typeError

/-- `this.children.map(child => child.evaluate(context))`, stopping at the
first thrown error. -/
def evalChildren : List RTree → Context → Except JsError (List Result)
  | [], _ => .ok []
  | c :: cs, ctx =>
      match RTree.evaluate c ctx with
      | .error e => .error e
      | .ok r =>
          match evalChildren cs ctx with
          | .error e => .error e
          | .ok rs => .ok (r :: rs)

end

mutual

/-- `extractMissingItems`: a node with a truthy `type` tag is Rule-level and
contributes one item when failed; otherwise its `results` children are
recursed into (a Rule-level result has no `results` field). -/
def extractMissingItems : Result → List MissingItem
  | .ruleRes r =>
      if r.type ≠ "" then
        if truthy r.passed then []
        else [{ id := r.id, type := r.type, rule := r.id, message := r.message,
                required := r.required, current := r.current,
                remaining := jsOr r.remaining (JsVal.num 0) }]
      else []
  | .groupRes _ _ _ _ results => extractMissingItemsList results

/-- `result.results.forEach(child => extractMissingItems(child, items))`. -/
def extractMissingItemsList : List Result → List MissingItem
  | [] => []
  | r :: rs => extractMissingItems r ++ extractMissingItemsList rs

end

/-- `Array.prototype.includes` on an array of strings (SameValueZero). -/
def arrIncludes (l : List String) (v : JsVal) : Bool :=
  match v with
  | .str s => l.contains s
  | _ => false

/-- `String.prototype.includes` (substring test, argument coerced to
string). -/
def strIncludes (s sub : String) : Bool :=
  (List.range (s.length + 1)).any
    (fun i => decide ((s.toList.drop i).take sub.length = sub.toList))

/-- `(value).includes(code)` for the value of `ctx.courseCodes || []`:
membership on an array, substring on a string, `TypeError` on a number or
boolean (no `includes` method). -/
def includesJs (c : CodesVal) (v : JsVal) : Except JsError Bool :=
  match c with
  | .arr l => .ok (arrIncludes l v)
  | .undef => .ok false
  | .other (.str s) => .ok (strIncludes s (jsToString v))
  | .other _ => .error .typeError

/-- `ctx.extraCurricularUnits` as a JavaScript value. -/
def optIntVal : Option Int → JsVal
  | none => .undef
  | some n => .num n

/-- The evaluator of `totalCreditRule` as the module actually runs: its
first statement is `const db = getCourseDB()`, but `ruleEngine.js` imports
only `getFirebaseMasterModel` from the models file, so the free identifier
`getCourseDB` throws `ReferenceError: getCourseDB is not defined` on every
call, before `courseCodes` is even read. -/
def totalCreditEvaluator : Context → JsVal → EvalRet :=
  fun _ _ => .throwE (.referenceError "getCourseDB")

/-- The remainder of the same evaluator body, with `getCourseDB` resolved
to the course store `firebaseMasterModel.js` exports (the binding the
missing import leaves out): sum of `credit` over
`db.getCourses(ctx.courseCodes || [])` filtered by
`ctx.grades?.[c.courseCode] !== 'F'`. -/
def totalCreditEvaluatorResolved (db : List CourseRec) (ctx : Context) (required : JsVal) :
    EvalRet :=
  match CourseDatabase.getCourses db (codesOrEmpty ctx.courseCodes) with
  | .error e => .throwE e
  | .ok courses =>
      let current :=
        ((courses.filter (fun c => decide (ctx.grades c.courseCode ≠ some "F"))).map
          (fun c => c.credit)).sum
      .sync (.bool (jsGE (.num current) required)) (.num current)

/-- The message function of the TOTAL_CREDIT rule. -/
def totalCreditMessage : MsgArgs → MsgRet :=
  fun a =>
    .plain (if truthy a.passed then
      "총 학점 충족 (" ++ jsToString a.current ++ "/" ++ jsToString a.required ++ ")"
    else
      "총 학점 부족 (" ++ jsToString a.current ++ "/" ++ jsToString a.required ++
        ", 부족: " ++ jsToString (jsSub a.required a.current) ++ "학점)")

def totalCreditRule : RTree :=
  .rule "TOTAL_130" RuleType.TOTAL_CREDIT (.num 130) totalCreditEvaluator totalCreditMessage

/-- The TOTAL_CREDIT rule with the store binding supplied — what the body
computes once `getCourseDB` resolves. -/
def totalCreditRuleResolved (db : List CourseRec) : RTree :=
  .rule "TOTAL_130" RuleType.TOTAL_CREDIT (.num 130) (totalCreditEvaluatorResolved db)
    totalCreditMessage

/-- The `async` evaluator of `majorBasicRule`: awaits
`masterModel.getByCourseCodes(ctx.courseCodes || [])`, keeps basic-major
courses (`type === 'MAJOR' && stage === 'BASIC'`) without an 'F' grade, and
resolves to `{passed, current}` — modelled as the promise `EvalRet.asyncRet`
carrying the resolution values. -/
def majorBasicEvaluator (master : List CourseRec) (ctx : Context) (required : JsVal) : EvalRet :=
  let courses := FirebaseMasterModel.getByCourseCodes master (codesOrEmpty ctx.courseCodes)
  let current :=
    ((courses.filter (fun c =>
        c.type = "MAJOR" && c.stage = "BASIC" &&
        decide (ctx.grades c.courseCode ≠ some "F"))).map (fun c => c.credit)).sum
  .asyncRet (.bool (jsGE (.num current) required)) (.num current)

def majorBasicRule (master : List CourseRec) : RTree :=
  .rule "MAJOR_BASIC_51" RuleType.MAJOR_BASIC_CREDIT (.num 51) (majorBasicEvaluator master)
    (fun a =>
      .plain (if truthy a.passed then
        "기본전공 충족 (" ++ jsToString a.current ++ "/" ++ jsToString a.required ++ ")"
      else
        "기본전공 부족 (" ++ jsToString a.current ++ "/" ++ jsToString a.required ++
          ", 부족: " ++ jsToString (jsSub a.required a.current) ++ "학점)"))

/-- The `async` evaluator of `majorAdvancedRule`
(`type === 'MAJOR' && stage === 'ADVANCED'`). -/
def majorAdvancedEvaluator (master : List CourseRec) (ctx : Context) (required : JsVal) :
    EvalRet :=
  let courses := FirebaseMasterModel.getByCourseCodes master (codesOrEmpty ctx.courseCodes)
  let current :=
    ((courses.filter (fun c =>
        c.type = "MAJOR" && c.stage = "ADVANCED" &&
        decide (ctx.grades c.courseCode ≠ some "F"))).map (fun c => c.credit)).sum
  .asyncRet (.bool (jsGE (.num current) required)) (.num current)

def majorAdvancedRule (master : List CourseRec) : RTree :=
  .rule "MAJOR_ADV_21" RuleType.MAJOR_ADVANCED_CREDIT (.num 21) (majorAdvancedEvaluator master)
    (fun a =>
      .plain (if truthy a.passed then
        "심화전공 충족 (" ++ jsToString a.current ++ "/" ++ jsToString a.required ++ ")"
      else
        "심화전공 부족 (" ++ jsToString a.current ++ "/" ++ jsToString a.required ++
          ", 부족: " ++ jsToString (jsSub a.required a.current) ++ "학점)"))

def majorRuleGroup (master : List CourseRec) : RTree :=
  .group "MAJOR" LogicType.AND [majorBasicRule master, majorAdvancedRule master] "전공 이수 요건"

/-- The `async` evaluator of `liberalTotalRule` (`type === 'LIBERAL'`). -/
def liberalTotalEvaluator (master : List CourseRec) (ctx : Context) (required : JsVal) :
    EvalRet :=
  let courses := FirebaseMasterModel.getByCourseCodes master (codesOrEmpty ctx.courseCodes)
  let current :=
    ((courses.filter (fun c =>
        c.type = "LIBERAL" && decide (ctx.grades c.courseCode ≠ some "F"))).map
      (fun c => c.credit)).sum
  .asyncRet (.bool (jsGE (.num current) required)) (.num current)

def liberalTotalRule (master : List CourseRec) : RTree :=
  .rule "LIBERAL_TOTAL_33" RuleType.LIBERAL_TOTAL_CREDIT (.num 33) (liberalTotalEvaluator master)
    (fun a =>
      .plain (if truthy a.passed then
        "교양 총 학점 충족 (" ++ jsToString a.current ++ "/" ++ jsToString a.required ++ ")"
      else
        "교양 총 학점 부족 (" ++ jsToString a.current ++ "/" ++ jsToString a.required ++
          ", 부족: " ++ jsToString (jsSub a.required a.current) ++ "학점)"))

def requiredBasicLiberalGroup : RTree :=
  .group "REQUIRED_BASIC_LIBERAL" LogicType.AND [] "필수 기초교양"

def liberalRuleGroup (master : List CourseRec) : RTree :=
  .group "LIBERAL" LogicType.AND [liberalTotalRule master, requiredBasicLiberalGroup]
    "교양 이수 요건"

/-- The evaluator of a `requiredCourseRule`:
`(ctx.courseCodes || []).includes(code) && ctx.grades?.[code] !== 'F'`,
`current: passed ? 1 : 0`. -/
def requiredCourseEvaluator (ctx : Context) (code : JsVal) : EvalRet :=
  match includesJs (codesOrEmpty ctx.courseCodes) code with
  | .error e => .throwE e
  | .ok mem =>
      let pass := mem && decide (ctx.grades (jsToString code) ≠ some "F")
      .sync (.bool pass) (.num (if pass then 1 else 0))

/-- `requiredCourseRule(courseCode, name)`.  Its message function is `async`
(it awaits `masterModel.getByCourseCode`), so it returns a promise of a
string; the display name is `course?.courseName || name`. -/
def requiredCourseRule (master : List CourseRec) (courseCode name : String) : RTree :=
  .rule ("REQ_" ++ courseCode) RuleType.REQUIRED_COURSE (.str courseCode)
    requiredCourseEvaluator
    (fun a =>
      let displayName :=
        match FirebaseMasterModel.getByCourseCode master courseCode with
        | some c => if c.courseName ≠ "" then c.courseName else name
        | none => name
      .promiseStr (if truthy a.passed then displayName ++ " 이수 완료"
                   else displayName ++ " 미이수"))

/-- `createRequiredCourseGroup` (the value its promise resolves to): one
required-course rule per course the master store flags required. -/
def createRequiredCourseGroup (master : List CourseRec) : RTree :=
  .group "REQUIRED_COURSES" LogicType.AND
    ((FirebaseMasterModel.getRequiredCourses master).map
      (fun course => requiredCourseRule master course.courseCode course.courseName))
    "필수 교과목"

/-- The evaluator of `extraCurricularRule`: effective threshold 35 for
`studentType === '편입생'`, else the rule's `required` (70);
`current = ctx.extraCurricularUnits || 0`. -/
def extraCurricularEvaluator (ctx : Context) (required : JsVal) : EvalRet :=
  let actualRequired := if ctx.studentType = some "편입생" then JsVal.num 35 else required
  let current := jsOr (optIntVal ctx.extraCurricularUnits) (JsVal.num 0)
  .sync (.bool (jsGE current actualRequired)) current

/-- `extraCurricularRule`.  Note its message function re-derives the
threshold from `current` alone:
`required === 70 ? (current < 35 ? 35 : 70) : required`. -/
def extraCurricularRule : RTree :=
  .rule "EXTRA_CURRICULAR_70" RuleType.EXTRA_CURRICULAR (.num 70) extraCurricularEvaluator
    (fun a =>
      let actualRequired :=
        if a.required = JsVal.num 70 then
          (if jsLT a.current (JsVal.num 35) then JsVal.num 35 else JsVal.num 70)
        else a.required
      .plain (if truthy a.passed then
        "비교과과정 충족 (" ++ jsToString a.current ++ "/" ++ jsToString actualRequired ++
          " 유닛)"
      else
        "비교과과정 부족 (" ++ jsToString a.current ++ "/" ++ jsToString actualRequired ++
          " 유닛, 부족: " ++ jsToString (jsSub actualRequired a.current) ++ " 유닛)"))

/-- `createCSGraduationRuleTree`.  The source calls the `async` function
`createRequiredCourseGroup()` WITHOUT `await`, so the fourth child is the
pending promise of that group, not the group itself. -/
def createCSGraduationRuleTree (master : List CourseRec) : RTree :=
  .group "ROOT" LogicType.AND
    [totalCreditRule,
     liberalRuleGroup master,
     majorRuleGroup master,
     .promiseNode (createRequiredCourseGroup master),
     extraCurricularRule]
    "컴퓨터공학과 졸업요건"

/-- The output object of `evaluateGraduation`. -/
structure EvalOutput where
  passed : JsVal
  tree : Result
  missingItems : List MissingItem

/-- The validation message thrown for a missing or non-array
`courseCodes`. -/
def validationMsg : String := "courseCodes는 필수이며 배열이어야 합니다"

/-- `evaluateGraduation`: validate
`!context.courseCodes || !Array.isArray(context.courseCodes)`, build the
tree, evaluate it, flatten the missing items, and return
`{passed: result.passed, tree: result, missingItems}`. -/
def evaluateGraduation (master : List CourseRec) (ctx : Context) :
    Except JsError EvalOutput :=
  if !(truthyCodes ctx.courseCodes && isArrayCodes ctx.courseCodes) then
    .error (.validation validationMsg)
  else
    match RTree.evaluate (createCSGraduationRuleTree master) ctx with
    | .error e => .error e
    | .ok result =>
        .ok { passed := Result.passedVal result, tree := result,
              missingItems := extractMissingItems result }

/-! ### Specification-side definitions and fixtures -/

/-- Per-code credit contribution as the spec words it: a code not found in
the store contributes zero, an explicit 'F' grade contributes zero, any
other (or absent) grade contributes the stored credit. -/
def perCodeCredit (db : List CourseRec) (ctx : Context) (code : String) : Int :=
  match CourseDatabase.getCourse db code with
  | none => 0
  | some c => if ctx.grades code = some "F" then 0 else c.credit

/-- The threshold actually displayed in the extra-curricular message, a
function of `current` alone. -/
def displayedExtraThreshold (current : Int) : Int := if current < 35 then 35 else 70

/-- The fail message the extra-curricular rule prints (threshold rendered
from `current` alone). -/
def extraFailMsg (u t : Int) : String :=
  "비교과과정 부족 (" ++ toString u ++ "/" ++ toString t ++ " 유닛, 부족: " ++
    toString (t - u) ++ " 유닛)"

/-- The pass message the extra-curricular rule prints. -/
def extraPassMsg (u t : Int) : String :=
  "비교과과정 충족 (" ++ toString u ++ "/" ++ toString t ++ " 유닛)"

/-- A context with an empty (but present) course-code array. -/
def ctxNoCourses : Context :=
  { courseCodes := .arr [], grades := fun _ => none, curriculumYear := none,
    studentType := none, extraCurricularUnits := none }

/-- A transfer student with 40 extra-curricular units. -/
def ctxTransfer40 : Context :=
  { courseCodes := .arr [], grades := fun _ => none, curriculumYear := none,
    studentType := some "편입생", extraCurricularUnits := some 40 }

/-- A freshman with 40 extra-curricular units. -/
def ctxFreshman40 : Context :=
  { courseCodes := .arr [], grades := fun _ => none, curriculumYear := none,
    studentType := some "신입생", extraCurricularUnits := some 40 }

/-- A freshman with 20 extra-curricular units. -/
def ctxFreshman20 : Context :=
  { courseCodes := .arr [], grades := fun _ => none, curriculumYear := none,
    studentType := some "신입생", extraCurricularUnits := some 20 }

/-- A context whose `courseCodes` is absent. -/
def ctxMissingCodes : Context :=
  { courseCodes := .undef, grades := fun _ => none, curriculumYear := none,
    studentType := none, extraCurricularUnits := none }

/-- Three 3-credit courses, as in the spec's credit-summation example. -/
def dbABC : List CourseRec :=
  [{ courseCode := "A", courseName := "과목A", credit := 3, type := "MAJOR",
     category := "전필", stage := "BASIC", isRequired := false },
   { courseCode := "B", courseName := "과목B", credit := 3, type := "MAJOR",
     category := "전선", stage := "BASIC", isRequired := false },
   { courseCode := "C", courseName := "과목C", credit := 3, type := "LIBERAL",
     category := "교선", stage := "BASIC", isRequired := false }]

/-- Grades A+/F/absent for the three example courses. -/
def gradesABC : String → Option String :=
  fun code => if code = "A" then some "A+" else if code = "B" then some "F" else none

/-- The context of the credit-summation example. -/
def ctxABC : Context :=
  { courseCodes := .arr ["A", "B", "C"], grades := gradesABC, curriculumYear := none,
    studentType := none, extraCurricularUnits := none }

/-- A context that has taken "X101" with grade A. -/
def ctxWithX101 : Context :=
  { courseCodes := .arr ["X101", "Y200"],
    grades := fun code => if code = "X101" then some "A" else none,
    curriculumYear := none, studentType := none, extraCurricularUnits := none }

/-- A synthetic always-failing stub rule. -/
def stubRuleFail : RTree :=
  .rule "SF" "STUB" (.num 1) (fun _ _ => .sync (.bool false) (.num 0)) (fun _ => .plain "f")

/-- A synthetic always-passing stub rule. -/
def stubRulePass : RTree :=
  .rule "SP" "STUB" (.num 1) (fun _ _ => .sync (.bool true) (.num 1)) (fun _ => .plain "p")

/-- The result of the failing stub rule. -/
def stubFailRes : Result :=
  .ruleRes { id := "SF", type := "STUB", passed := .bool false, required := .num 1,
             current := .num 0, remaining := .num 1, message := .plain "f" }

/-- The result of the passing stub rule. -/
def stubPassRes : Result :=
  .ruleRes { id := "SP", type := "STUB", passed := .bool true, required := .num 1,
             current := .num 1, remaining := .num 0, message := .plain "p" }

/-! ### Helper lemmas -/

/-- `ctx.extraCurricularUnits || 0` is `getD 0`. -/
theorem jsOr_optInt (o : Option Int) :
    jsOr (optIntVal o) (JsVal.num 0) = JsVal.num (o.getD 0) := by
  cases o with
  | none => rfl
  | some n =>
    by_cases hn : n = 0 <;> simp [jsOr, truthy, optIntVal, hn]

/-- A successful `children.map(child => child.evaluate(context))` evaluates
every child, in declared order, to the corresponding entry of the result
list. -/
theorem evalChildren_forall₂ (ctx : Context) :
    ∀ (children : List RTree) (rs : List Result),
      evalChildren children ctx = .ok rs →
      List.Forall₂ (fun c r => RTree.evaluate c ctx = Except.ok r) children rs := by
  intro children
  induction children with
  | nil =>
    intro rs h
    simp only [evalChildren] at h
    cases h
    exact List.Forall₂.nil
  | cons c cs ih =>
    intro rs h
    simp only [evalChildren] at h
    cases hc : RTree.evaluate c ctx with
    | error e => rw [hc] at h; cases h
    | ok r =>
      rw [hc] at h
      cases hcs : evalChildren cs ctx with
      | error e => rw [hcs] at h; cases h
      | ok rs' =>
        rw [hcs] at h
        cases h
        exact List.Forall₂.cons hc (ih rs' hcs)

/-- The source's filter/map/reduce pipeline over the looked-up course list
equals the spec's per-code credit sum. -/
theorem creditSum_eq_perCode (db : List CourseRec) (ctx : Context) :
    ∀ codes : List String,
      (((codes.filterMap (CourseDatabase.getCourse db)).filter
          (fun c => decide (ctx.grades c.courseCode ≠ some "F"))).map
        (fun c => c.credit)).sum
        = (codes.map (perCodeCredit db ctx)).sum := by
  intro codes
  induction codes with
  | nil => rfl
  | cons a as ih =>
    simp only [List.filterMap_cons, List.map_cons, List.sum_cons]
    cases hfind : CourseDatabase.getCourse db a with
    | none =>
      simp only [perCodeCredit, hfind]
      rw [← ih]
      omega
    | some c =>
      have hcode : c.courseCode = a := by
        have hp := List.find?_some hfind
        exact of_decide_eq_true hp
      by_cases hg : ctx.grades a = some "F"
      · have : decide (ctx.grades c.courseCode ≠ some "F") = false := by
          rw [hcode]; simp [hg]
        simp only [perCodeCredit, hfind, List.filter_cons, this, if_pos hg]
        rw [← ih]
        simp
      · have : decide (ctx.grades c.courseCode ≠ some "F") = true := by
          rw [hcode]; simp [hg]
        simp only [perCodeCredit, hfind, List.filter_cons, this, if_neg hg]
        rw [← ih]
        simp

/-! ### Claim theorems -/

/-- Claim C2: for every RuleGroup with children and every context, whenever
the children evaluate (they are Rules/RuleGroups, whose evaluators follow the
no-throw contract), `evaluate` evaluates every child in declared order — all
of them, with no AND/OR short-circuit — returns their results in that order
in `results`, and aggregates `passed` as the conjunction (`every`) under AND
and the disjunction (`some`) otherwise; an empty AND group passes and an
empty OR group fails. -/
theorem ruleGroup_evaluate_spec (id logic description : String) (children : List RTree)
    (ctx : Context) (rs : List Result) (h : evalChildren children ctx = .ok rs) :
    RTree.evaluate (.group id logic children description) ctx
      = .ok (.groupRes id
          (if logic = LogicType.AND then rs.all Result.passedTruthy
           else rs.any Result.passedTruthy) logic description rs)
    ∧ List.Forall₂ (fun c r => RTree.evaluate c ctx = Except.ok r) children rs
    ∧ rs.length = children.length
    ∧ (children = [] → logic = LogicType.AND →
        RTree.evaluate (.group id logic children description) ctx
          = .ok (.groupRes id true logic description []))
    ∧ (children = [] → logic = LogicType.OR →
        RTree.evaluate (.group id logic children description) ctx
          = .ok (.groupRes id false logic description [])) := by
  have hf := evalChildren_forall₂ ctx children rs h
  have hlen : rs.length = children.length := hf.length_eq.symm
  refine ⟨?_, hf, hlen, ?_, ?_⟩
  · simp [RTree.evaluate, h]
  · intro hc hl
    subst hc
    have : rs = [] := by simpa [evalChildren] using h.symm
    subst this
    simp [RTree.evaluate, h, hl, List.all_nil]
  · intro hc hl
    subst hc
    have : rs = [] := by simpa [evalChildren] using h.symm
    subst this
    have : ¬ (LogicType.OR = LogicType.AND) := by decide
    simp [RTree.evaluate, h, hl, this, List.any_nil]

/-- Witness for C2: a two-child AND group whose first child fails still
evaluates the second child and reports both results, aggregating to a failing
AND. -/
theorem ruleGroup_evaluate_spec_witness :
    evalChildren [stubRuleFail, stubRulePass] ctxNoCourses
      = .ok [stubFailRes, stubPassRes]
    ∧ RTree.evaluate (.group "G" LogicType.AND [stubRuleFail, stubRulePass] "d") ctxNoCourses
        = .ok (.groupRes "G" false LogicType.AND "d" [stubFailRes, stubPassRes])
    ∧ List.Forall₂ (fun c r => RTree.evaluate c ctxNoCourses = Except.ok r)
        [stubRuleFail, stubRulePass] [stubFailRes, stubPassRes] := by
  have h : evalChildren [stubRuleFail, stubRulePass] ctxNoCourses
      = .ok [stubFailRes, stubPassRes] := rfl
  have hs := ruleGroup_evaluate_spec "G" LogicType.AND "d" [stubRuleFail, stubRulePass]
    ctxNoCourses [stubFailRes, stubPassRes] h
  refine ⟨h, ?_, hs.2.1⟩
  have h1 := hs.1
  simpa [stubFailRes, stubPassRes, Result.passedTruthy, truthy] using h1

/-- Claim C6 (code bug): the MAJOR_BASIC_CREDIT rule's evaluator is `async`
(it returns a promise), but `Rule.evaluate` destructures the promise without
awaiting it, so for EVERY context the produced Result carries
`passed = undefined`, `current = undefined`, `remaining = NaN` and a message
rendered from those values — the resolved `{passed, current}` is never
used. -/
theorem majorBasic_promise_destructured (master : List CourseRec) (ctx : Context) :
    (∃ p c, majorBasicEvaluator master ctx (JsVal.num 51) = EvalRet.asyncRet p c)
    ∧ RTree.evaluate (majorBasicRule master) ctx
        = .ok (.ruleRes
            { id := "MAJOR_BASIC_51", type := RuleType.MAJOR_BASIC_CREDIT,
              passed := JsVal.undef, required := JsVal.num 51, current := JsVal.undef,
              remaining := JsVal.nan,
              message := .plain "기본전공 부족 (undefined/51, 부족: NaN학점)" }) := by
  exact ⟨⟨_, _, rfl⟩, rfl⟩

/-- Claim C9: the EXTRA_CURRICULAR rule passes iff
`extraCurricularUnits` (defaulting to 0) reaches the effective threshold —
35 for `studentType = '편입생'`, 70 otherwise — and reports those units as
`current`; in particular a transfer student with 40 units passes while a
non-transfer student with 40 units fails. -/
theorem extraCurricular_threshold_spec :
    (∀ ctx : Context, ∃ r : RuleResult,
        RTree.evaluate extraCurricularRule ctx = .ok (.ruleRes r)
        ∧ r.current = JsVal.num ((ctx.extraCurricularUnits).getD 0)
        ∧ truthy r.passed
            = decide ((if ctx.studentType = some "편입생" then (35 : Int) else 70)
                ≤ (ctx.extraCurricularUnits).getD 0))
    ∧ (∃ r : RuleResult, RTree.evaluate extraCurricularRule ctxTransfer40 = .ok (.ruleRes r)
        ∧ truthy r.passed = true)
    ∧ (∃ r : RuleResult, RTree.evaluate extraCurricularRule ctxFreshman40 = .ok (.ruleRes r)
        ∧ truthy r.passed = false) := by
  refine ⟨fun ctx => ?_, ⟨_, rfl, rfl⟩, ⟨_, rfl, rfl⟩⟩
  refine ⟨_, rfl, ?_, ?_⟩
  · simp [mkRuleResult, extraCurricularEvaluator, jsOr_optInt]
  · simp only [mkRuleResult, extraCurricularEvaluator, jsOr_optInt, truthy]
    by_cases hst : ctx.studentType = some "편입생" <;>
      simp [hst, jsGE, toNumber]

/-- Claim C3 (code bug): the TOTAL_CREDIT rule as shipped never reports
anything — its evaluator's first statement calls `getCourseDB()`, an
identifier `ruleEngine.js` never imports, so every evaluation throws a
`ReferenceError`.  With `getCourseDB` resolved to the exported course store
(the clear intent, the import being the slip), the body reports as `current`
the sum over all listed codes of the store's credit — zero for unknown
codes, zero for an explicit 'F' grade, the stored credit otherwise (absent
grades count) — and passes iff that sum is at least 130. -/
theorem totalCredit_rule_spec :
    (∀ ctx : Context,
        RTree.evaluate totalCreditRule ctx = .error (.referenceError "getCourseDB"))
    ∧ (∀ (db : List CourseRec) (ctx : Context) (codes : List String),
        ctx.courseCodes = CodesVal.arr codes →
        ∃ r : RuleResult,
          RTree.evaluate (totalCreditRuleResolved db) ctx = .ok (.ruleRes r)
          ∧ r.current = JsVal.num ((codes.map (perCodeCredit db ctx)).sum)
          ∧ truthy r.passed
              = decide ((130 : Int) ≤ (codes.map (perCodeCredit db ctx)).sum)) := by
  constructor
  · intro ctx
    rfl
  · intro db ctx codes h
    obtain ⟨cc, g, cy, st, eu⟩ := ctx
    change cc = CodesVal.arr codes at h
    subst h
    have hsum := creditSum_eq_perCode db ⟨CodesVal.arr codes, g, cy, st, eu⟩ codes
    refine ⟨_, rfl, ?_, ?_⟩
    · simpa [mkRuleResult] using congrArg JsVal.num hsum
    · simp only [ne_eq, decide_not] at hsum
      simp [mkRuleResult, truthy, jsGE, toNumber, hsum]

/-- Witness for C3: on the spec's example context the shipped rule throws
the `ReferenceError`, while the store-resolved body — three 3-credit courses
with grades A+/F/absent — yields `current = 6` and a failing rule. -/
theorem totalCredit_rule_spec_witness :
    RTree.evaluate totalCreditRule ctxABC = .error (.referenceError "getCourseDB")
    ∧ ∃ r : RuleResult,
        RTree.evaluate (totalCreditRuleResolved dbABC) ctxABC = .ok (.ruleRes r)
        ∧ r.current = JsVal.num 6
        ∧ truthy r.passed = false := by
  refine ⟨totalCredit_rule_spec.1 ctxABC, ?_⟩
  obtain ⟨r, h1, h2, h3⟩ := totalCredit_rule_spec.2 dbABC ctxABC ["A", "B", "C"] rfl
  have hsum : ((["A", "B", "C"].map (perCodeCredit dbABC ctxABC)).sum) = 6 := rfl
  rw [hsum] at h2 h3
  exact ⟨r, h1, h2, by rw [h3]; rfl⟩

/-- Claim C8: for every mandatory course code and every array-`courseCodes`
context, the REQUIRED_COURSE rule passes iff the code is a member of
`courseCodes` and its grade is not 'F' (an absent grade passes), and its
`current` is 1 when passed and 0 when failed. -/
theorem requiredCourse_rule_spec (master : List CourseRec) (code name : String)
    (ctx : Context) (codes : List String) (h : ctx.courseCodes = CodesVal.arr codes) :
    ∃ r : RuleResult,
      RTree.evaluate (requiredCourseRule master code name) ctx = .ok (.ruleRes r)
      ∧ (truthy r.passed ↔ (code ∈ codes ∧ ctx.grades code ≠ some "F"))
      ∧ r.current = (if code ∈ codes ∧ ctx.grades code ≠ some "F" then JsVal.num 1
                     else JsVal.num 0) := by
  obtain ⟨cc, g, cy, st, eu⟩ := ctx
  change cc = CodesVal.arr codes at h
  subst h
  refine ⟨_, rfl, ?_, ?_⟩
  · simp [mkRuleResult, truthy, arrIncludes, jsToString, List.contains]
  · simp only [mkRuleResult, arrIncludes, jsToString]
    by_cases hmem : code ∈ codes <;> by_cases hg : g code = some "F" <;>
      simp [hmem, hg, List.contains]

/-- Witness for C8: the spec's example — required code "X101" missing from
`courseCodes` fails with `current = 0`; a context that has taken "X101" with
grade A passes with `current = 1`. -/
theorem requiredCourse_rule_spec_witness :
    (∃ r : RuleResult,
        RTree.evaluate (requiredCourseRule [] "X101" "자료구조") ctxNoCourses
          = .ok (.ruleRes r)
        ∧ truthy r.passed = false ∧ r.current = JsVal.num 0)
    ∧ (∃ r : RuleResult,
        RTree.evaluate (requiredCourseRule [] "X101" "자료구조") ctxWithX101
          = .ok (.ruleRes r)
        ∧ truthy r.passed = true ∧ r.current = JsVal.num 1) := by
  constructor
  · obtain ⟨r, h1, h2, h3⟩ := requiredCourse_rule_spec [] "X101" "자료구조" ctxNoCourses [] rfl
    refine ⟨r, h1, ?_, ?_⟩
    · cases hb : truthy r.passed with
      | false => rfl
      | true => exact absurd (h2.mp hb).1 (List.not_mem_nil "X101")
    · rw [h3]; simp
  · obtain ⟨r, h1, h2, h3⟩ := requiredCourse_rule_spec [] "X101" "자료구조" ctxWithX101
      ["X101", "Y200"] rfl
    have hmem : "X101" ∈ ["X101", "Y200"] := by simp
    have hgr : ctxWithX101.grades "X101" ≠ some "F" := by
      simp [ctxWithX101]
    refine ⟨r, h1, ?_, ?_⟩
    · exact h2.mpr ⟨hmem, hgr⟩
    · rw [h3, if_pos ⟨hmem, hgr⟩]

/-- Claim C10: the EXTRA_CURRICULAR message re-derives its displayed
threshold from `current` alone (35 when `current < 35`, else 70), so it can
contradict the evaluator: every non-transfer context with units < 35 fails
against 70 yet its message reports the requirement as 35, and every transfer
context with 35 ≤ units < 70 passes against 35 yet its message reports
70. -/
theorem extraCurricular_message_mismatch :
    (∀ (ctx : Context) (u : Int), ctx.extraCurricularUnits = some u →
        ctx.studentType ≠ some "편입생" → u < 35 →
        ∃ r : RuleResult,
          RTree.evaluate extraCurricularRule ctx = .ok (.ruleRes r)
          ∧ truthy r.passed = false
          ∧ r.message = .plain (extraFailMsg u (displayedExtraThreshold u))
          ∧ displayedExtraThreshold u = 35)
    ∧ (∀ (ctx : Context) (u : Int), ctx.extraCurricularUnits = some u →
        ctx.studentType = some "편입생" → 35 ≤ u → u < 70 →
        ∃ r : RuleResult,
          RTree.evaluate extraCurricularRule ctx = .ok (.ruleRes r)
          ∧ truthy r.passed = true
          ∧ r.message = .plain (extraPassMsg u (displayedExtraThreshold u))
          ∧ displayedExtraThreshold u = 70) := by
  constructor
  · intro ctx u hu hst hlt
    have hor : jsOr (JsVal.num u) (JsVal.num 0) = JsVal.num u := by
      have := jsOr_optInt (some u); simpa [optIntVal] using this
    have hpass : jsGE (JsVal.num u) (JsVal.num 70) = false := by
      simp only [jsGE, toNumber]
      simp only [decide_eq_false_iff_not]
      omega
    have hdisp : jsLT (JsVal.num u) (JsVal.num 35) = true := by
      simp only [jsLT, toNumber]
      simpa using hlt
    refine ⟨_, rfl, ?_, ?_, ?_⟩
    · simp [mkRuleResult, extraCurricularEvaluator, hu, if_neg hst, optIntVal, hor, hpass,
        truthy]
    · simp [mkRuleResult, extraCurricularEvaluator, hu, if_neg hst, optIntVal, hor, hpass,
        hdisp, truthy, extraFailMsg, displayedExtraThreshold, if_pos hlt, jsToString,
        jsSub, toNumber]
    · simp [displayedExtraThreshold, hlt]
  · intro ctx u hu hst h35 h70
    have hor : jsOr (JsVal.num u) (JsVal.num 0) = JsVal.num u := by
      have := jsOr_optInt (some u); simpa [optIntVal] using this
    have hpass : jsGE (JsVal.num u) (JsVal.num 35) = true := by
      simp only [jsGE, toNumber]
      simpa using h35
    have hnlt : ¬ (u < 35) := by omega
    have hdisp : jsLT (JsVal.num u) (JsVal.num 35) = false := by
      simp only [jsLT, toNumber]
      simp only [decide_eq_false_iff_not]
      omega
    refine ⟨_, rfl, ?_, ?_, ?_⟩
    · simp [mkRuleResult, extraCurricularEvaluator, hu, if_pos hst, optIntVal, hor, hpass,
        truthy]
    · simp [mkRuleResult, extraCurricularEvaluator, hu, if_pos hst, optIntVal, hor, hpass,
        hdisp, truthy, extraPassMsg, displayedExtraThreshold, if_neg hnlt, jsToString]
    · simp [displayedExtraThreshold, if_neg hnlt]

/-- Witness for C10: a freshman with 20 units gets the understated "35"
message while failing the real 70 threshold; a transfer student with 40
units passes the real 35 threshold while the message claims 70. -/
theorem extraCurricular_message_mismatch_witness :
    (∃ r : RuleResult,
        RTree.evaluate extraCurricularRule ctxFreshman20 = .ok (.ruleRes r)
        ∧ truthy r.passed = false
        ∧ r.message = .plain (extraFailMsg 20 35))
    ∧ (∃ r : RuleResult,
        RTree.evaluate extraCurricularRule ctxTransfer40 = .ok (.ruleRes r)
        ∧ truthy r.passed = true
        ∧ r.message = .plain (extraPassMsg 40 70)) := by
  constructor
  · obtain ⟨r, h1, h2, h3, h4⟩ := extraCurricular_message_mismatch.1 ctxFreshman20 20 rfl
      (by simp [ctxFreshman20]) (by omega)
    exact ⟨r, h1, h2, by rw [h3, h4]⟩
  · obtain ⟨r, h1, h2, h3, h4⟩ := extraCurricular_message_mismatch.2 ctxTransfer40 40 rfl
      rfl (by omega) (by omega)
    exact ⟨r, h1, h2, by rw [h3, h4]⟩

/-- The batch-of-10 fetch of `FirebaseMasterModel.getByCourseCodes` returns
exactly the found records in input order. -/
theorem getByCourseCodes_eq_filterMap (master : List CourseRec) (l : List String) :
    FirebaseMasterModel.getByCourseCodes master (.arr l)
      = l.filterMap (FirebaseMasterModel.getByCourseCode master) := by
  have hchunks : ∀ (n : ℕ) (l : List String), l.length ≤ n →
      (chunksOf10 l).flatMap
          (fun batch => batch.filterMap (FirebaseMasterModel.getByCourseCode master))
        = l.filterMap (FirebaseMasterModel.getByCourseCode master) := by
    intro n
    induction n with
    | zero =>
      intro l hl
      have hnil : l = [] := List.eq_nil_of_length_eq_zero (Nat.le_zero.mp hl)
      subst hnil
      rw [chunksOf10]
      simp
    | succ n ih =>
      intro l hl
      by_cases hnil : l = []
      · subst hnil
        rw [chunksOf10]
        simp
      · rw [chunksOf10, dif_neg hnil, List.flatMap_cons,
          ih (l.drop 10) (by simp only [List.length_drop]; omega),
          ← List.filterMap_append, List.take_append_drop]
  by_cases hnil : l = []
  · subst hnil; rfl
  · show (if l = [] then [] else _) = _
    rw [if_neg hnil]
    exact hchunks l.length l (le_refl _)

/-- Fields of a required-course rule's evaluation result, for an
array-`courseCodes` context. -/
theorem requiredCourse_eval_fields (master : List CourseRec) (code name : String)
    (ctx : Context) (codes : List String) (h : ctx.courseCodes = CodesVal.arr codes) :
    ∃ r : RuleResult,
      RTree.evaluate (requiredCourseRule master code name) ctx = .ok (.ruleRes r)
      ∧ r.type = RuleType.REQUIRED_COURSE
      ∧ r.passed = .bool (codes.contains code && decide (ctx.grades code ≠ some "F"))
      ∧ r.current
          = .num (if codes.contains code && decide (ctx.grades code ≠ some "F") then 1 else 0)
      ∧ r.remaining = (if truthy r.passed then JsVal.num 0
                       else mathMax0 (jsSub (.str code) r.current)) := by
  obtain ⟨cc, g, cy, st, eu⟩ := ctx
  change cc = CodesVal.arr codes at h
  subst h
  exact ⟨_, rfl, rfl, rfl, rfl, rfl⟩

/-- Evaluating the built ROOT tree throws
`ReferenceError: getCourseDB is not defined` at its FIRST child, for every
context: the TOTAL_CREDIT evaluator's free `getCourseDB` is never imported,
and `children.map` dies there before the promise fourth child is reached. -/
theorem rootTree_evaluate_throws (master : List CourseRec) (ctx : Context) :
    RTree.evaluate (createCSGraduationRuleTree master) ctx
      = .error (.referenceError "getCourseDB") :=
  rfl

/-- Claim C7 (amended): for every Rule with numeric `required` R and numeric
`current` C, the Result's `remaining` is 0 when the rule passed and
`max(0, R − C)` when it failed — hence never negative, and equal to
`max(0, R − C)` whenever passing agrees with C ≥ R (required=130,
current=100 gives 30; current=140 gives 0); a rule passing below its
recorded `required` records `remaining = 0` instead.  A REQUIRED_COURSE rule
(non-numeric course code) reports `remaining = 0` when it passes and in
every derived MissingItem, but its own failing Result records
`remaining = NaN` (`courseCode - current` is `NaN`, and
`extractMissingItems` coerces the falsy `NaN` to 0). -/
theorem rule_remaining_spec :
    (∀ (id type : String) (R C : Int) (p : JsVal) (ev : Context → JsVal → EvalRet)
        (msg : MsgArgs → MsgRet) (ctx : Context),
        ev ctx (JsVal.num R) = EvalRet.sync p (JsVal.num C) →
        ∃ r : RuleResult,
          RTree.evaluate (.rule id type (JsVal.num R) ev msg) ctx = .ok (.ruleRes r)
          ∧ r.remaining = JsVal.num (if truthy p then 0 else max 0 (R - C))
          ∧ (0 : Int) ≤ (if truthy p then 0 else max 0 (R - C))
          ∧ (truthy p = decide (R ≤ C) → r.remaining = JsVal.num (max 0 (R - C))))
    ∧ (∀ (master : List CourseRec) (code name : String) (ctx : Context)
        (codes : List String),
        ctx.courseCodes = CodesVal.arr codes →
        strToNumber code = none →
        ∃ r : RuleResult,
          RTree.evaluate (requiredCourseRule master code name) ctx = .ok (.ruleRes r)
          ∧ (truthy r.passed = true → r.remaining = JsVal.num 0)
          ∧ (truthy r.passed = false → r.remaining = JsVal.nan)
          ∧ (∀ m ∈ extractMissingItems (.ruleRes r), m.remaining = JsVal.num 0)) := by
  constructor
  · intro id type R C p ev msg ctx hev
    have he : RTree.evaluate (.rule id type (JsVal.num R) ev msg) ctx
        = .ok (.ruleRes (mkRuleResult id type (JsVal.num R) msg p (JsVal.num C))) := by
      simp [RTree.evaluate, hev, evalRuleRet]
    have hrem : (mkRuleResult id type (JsVal.num R) msg p (JsVal.num C)).remaining
        = JsVal.num (if truthy p then 0 else max 0 (R - C)) := by
      simp only [mkRuleResult]
      by_cases hpt : truthy p
      · rw [if_pos hpt, if_pos hpt]
      · rw [if_neg hpt, if_neg hpt]
        simp [jsSub, toNumber, mathMax0]
    refine ⟨_, he, hrem, ?_, ?_⟩
    · by_cases hpt : truthy p
      · rw [if_pos hpt]
      · rw [if_neg hpt]
        omega
    · intro hp
      rw [hrem]
      by_cases hpt : truthy p
      · rw [if_pos hpt]
        rw [hpt] at hp
        have hRC : R ≤ C := of_decide_eq_true hp.symm
        have hmax : max 0 (R - C) = 0 := by omega
        rw [hmax]
      · rw [if_neg hpt]
  · intro master code name ctx codes hcc hnum
    obtain ⟨r, he, hty, hp, hc, hr⟩ := requiredCourse_eval_fields master code name ctx codes hcc
    refine ⟨r, he, ?_, ?_, ?_⟩
    · intro hptrue
      rw [hr, if_pos hptrue]
    · intro hpfalse
      rw [hr, if_neg (by rw [hpfalse]; exact Bool.false_ne_true), hc]
      simp [jsSub, toNumber, hnum, mathMax0]
    · intro m hm
      by_cases hpt : truthy r.passed
      · rw [extractMissingItems] at hm
        rw [hty] at hm
        simp [RuleType.REQUIRED_COURSE, hpt] at hm
      · have hrem : r.remaining = JsVal.nan := by
          rw [hr, if_neg hpt, hc]
          simp [jsSub, toNumber, hnum, mathMax0]
        rw [extractMissingItems, hty] at hm
        rw [if_pos (show RuleType.REQUIRED_COURSE ≠ "" by decide)] at hm
        rw [if_neg hpt] at hm
        rw [List.mem_singleton] at hm
        subst hm
        simp [hrem, jsOr, truthy]

/-- Witness for C7: required=130/current=100 gives remaining 30; current=140
gives 0; a failed REQUIRED_COURSE rule has `remaining = NaN` in its Result
yet 0 in its MissingItem. -/
theorem rule_remaining_spec_witness :
    (∃ r : RuleResult,
        RTree.evaluate (.rule "T130" "TC" (JsVal.num 130)
            (fun _ _ => .sync (.bool false) (JsVal.num 100)) (fun _ => .plain "m"))
          ctxNoCourses = .ok (.ruleRes r)
        ∧ r.remaining = JsVal.num 30)
    ∧ (∃ r : RuleResult,
        RTree.evaluate (.rule "T130" "TC" (JsVal.num 130)
            (fun _ _ => .sync (.bool true) (JsVal.num 140)) (fun _ => .plain "m"))
          ctxNoCourses = .ok (.ruleRes r)
        ∧ r.remaining = JsVal.num 0)
    ∧ (∃ r : RuleResult,
        RTree.evaluate (requiredCourseRule [] "X102" "과목명") ctxNoCourses
          = .ok (.ruleRes r)
        ∧ (truthy r.passed = false → r.remaining = JsVal.nan)
        ∧ ∀ m ∈ extractMissingItems (.ruleRes r), m.remaining = JsVal.num 0) := by
  refine ⟨?_, ?_, ?_⟩
  · obtain ⟨r, h1, _, _, h4⟩ := rule_remaining_spec.1 "T130" "TC" 130 100 (.bool false)
      (fun _ _ => .sync (.bool false) (JsVal.num 100)) (fun _ => .plain "m") ctxNoCourses
      rfl
    refine ⟨r, h1, ?_⟩
    rw [h4 (by decide)]; decide
  · obtain ⟨r, h1, _, _, h4⟩ := rule_remaining_spec.1 "T130" "TC" 130 140 (.bool true)
      (fun _ _ => .sync (.bool true) (JsVal.num 140)) (fun _ => .plain "m") ctxNoCourses
      rfl
    refine ⟨r, h1, ?_⟩
    rw [h4 (by decide)]; decide
  · obtain ⟨r, h1, _, h3, h4⟩ := rule_remaining_spec.2 [] "X102" "과목명" ctxNoCourses []
      rfl (by decide)
    exact ⟨r, h1, h3, h4⟩

/-- Counterexample for C7 as stated, in both regimes: the REQUIRED_COURSE
rule for "X101", evaluated on a context that has not taken it, records
`remaining = NaN` — not 0 — in its own Result; and the EXTRA_CURRICULAR
rule for a transfer student with 40 units (numeric required 70, numeric
current 40, passed) records `remaining = 0`, not `max(0, 70 − 40) = 30`. -/
theorem requiredCourse_remaining_counterexample :
    (∃ r : RuleResult,
        RTree.evaluate (requiredCourseRule [] "X101" "자료구조") ctxNoCourses
          = .ok (.ruleRes r)
        ∧ truthy r.passed = false
        ∧ r.remaining = JsVal.nan
        ∧ r.remaining ≠ JsVal.num 0)
    ∧ (∃ r : RuleResult,
        RTree.evaluate extraCurricularRule ctxTransfer40 = .ok (.ruleRes r)
        ∧ r.required = JsVal.num 70
        ∧ r.current = JsVal.num 40
        ∧ truthy r.passed = true
        ∧ r.remaining = JsVal.num 0
        ∧ r.remaining ≠ JsVal.num (max 0 (70 - 40))) :=
  ⟨⟨_, rfl, rfl, rfl, by decide⟩, ⟨_, rfl, rfl, rfl, rfl, rfl, by decide⟩⟩

/-- Claim C4: a context whose `courseCodes` is not an array (absent, or any
non-array value) makes `evaluateGraduation` fail with the validation error,
identically for every pair of stores (the stores are never consulted); a
context whose `courseCodes` is an array — empty included — never produces
the validation error. -/
theorem evaluateGraduation_validation_spec (master master' : List CourseRec)
    (ctx : Context) :
    ((∀ codes, ctx.courseCodes ≠ CodesVal.arr codes) →
        evaluateGraduation master ctx = .error (.validation validationMsg)
        ∧ evaluateGraduation master ctx = evaluateGraduation master' ctx)
    ∧ (∀ codes, ctx.courseCodes = CodesVal.arr codes →
        ∀ m, evaluateGraduation master ctx ≠ .error (.validation m)) := by
  constructor
  · intro hno
    have hguard : (truthyCodes ctx.courseCodes && isArrayCodes ctx.courseCodes) = false := by
      cases hcc : ctx.courseCodes with
      | undef => rfl
      | arr l => exact absurd hcc (hno l)
      | other v => simp [truthyCodes, isArrayCodes]
    constructor <;> simp [evaluateGraduation, hguard]
  · intro codes h m
    have hroot := rootTree_evaluate_throws master ctx
    have hguard : (truthyCodes ctx.courseCodes && isArrayCodes ctx.courseCodes) = true := by
      rw [h]; rfl
    simp [evaluateGraduation, hguard, hroot]

/-- Witness for C4: an absent `courseCodes` yields the validation error for
any stores, identically across stores; an empty array never yields it. -/
theorem evaluateGraduation_validation_spec_witness :
    evaluateGraduation [] ctxMissingCodes = .error (.validation validationMsg)
    ∧ evaluateGraduation [] ctxMissingCodes = evaluateGraduation dbABC ctxMissingCodes
    ∧ ∀ m, evaluateGraduation [] ctxNoCourses ≠ .error (.validation m) := by
  obtain ⟨h1, h2⟩ := (evaluateGraduation_validation_spec [] dbABC ctxMissingCodes).1
    (fun codes hc => by exact absurd hc (by simp [ctxMissingCodes]))
  exact ⟨h1, h2, (evaluateGraduation_validation_spec [] [] ctxNoCourses).2 [] rfl⟩

/-- Claim C1 (code bug): for EVERY context whose `courseCodes` is an array,
`evaluateGraduation` rejects with
`ReferenceError: getCourseDB is not defined` instead of returning
`{passed, tree, missingItems}`: the ROOT's first child, TOTAL_CREDIT, calls
the never-imported `getCourseDB` (and were that fixed, the unawaited promise
fourth child would still throw a `TypeError` — see the tree-builder
theorem). -/
theorem evaluateGraduation_throws_for_valid_context (master : List CourseRec)
    (ctx : Context) (codes : List String) (h : ctx.courseCodes = CodesVal.arr codes) :
    evaluateGraduation master ctx = .error (.referenceError "getCourseDB") := by
  have hguard : (truthyCodes ctx.courseCodes && isArrayCodes ctx.courseCodes) = true := by
    rw [h]; rfl
  have hroot := rootTree_evaluate_throws master ctx
  simp [evaluateGraduation, hguard, hroot]

/-- Witness for C1's failing evaluation: an empty store and an empty
course-code array already reject with the `ReferenceError`. -/
theorem evaluateGraduation_throws_witness :
    evaluateGraduation [] ctxNoCourses = .error (.referenceError "getCourseDB") :=
  evaluateGraduation_throws_for_valid_context [] ctxNoCourses [] rfl

/-- Claim C5 (code bug): the built ROOT group is an AND over five children —
TOTAL_CREDIT, the LIBERAL group, the MAJOR group, then NOT the
REQUIRED_COURSES group itself but the pending promise of it (the `async`
builder is called without `await`), then EXTRA_CURRICULAR; the group the
promise resolves to does contain one REQUIRED_COURSE rule per course the
store flags required, deterministically, and evaluating the promise child
throws a `TypeError`. -/
theorem treeBuilder_unawaited_promise (master : List CourseRec) :
    createCSGraduationRuleTree master
      = .group "ROOT" LogicType.AND
          [totalCreditRule, liberalRuleGroup master, majorRuleGroup master,
           .promiseNode (createRequiredCourseGroup master), extraCurricularRule]
          "컴퓨터공학과 졸업요건"
    ∧ createRequiredCourseGroup master
      = .group "REQUIRED_COURSES" LogicType.AND
          ((master.filter (fun c => c.isRequired)).map
            (fun c => requiredCourseRule master c.courseCode c.courseName))
          "필수 교과목"
    ∧ (∀ ctx, RTree.evaluate (.promiseNode (createRequiredCourseGroup master)) ctx
          = .error .typeError) :=
  ⟨rfl, rfl, fun _ => rfl⟩

end GPA
